import Mathlib

/-!
Verification development for the continuous-listening speech-to-text pipeline
in `src/components/speech.tsx`.  Audio samples (JS `Float32Array` entries) are
modelled as rationals, chunk blobs by their byte sizes, and the asynchronous
session (VAD loop, recorder callbacks, single-flight `processAudio`) as a
small-step machine over explicit task interleavings.
-/

namespace SpeechToText

/-! ### JS string primitives used by lines 451-461 of speech.tsx -/

/-- The ASCII whitespace characters matched by JS `\s` and removed by
`String.prototype.trim` (the model restricts JS's full Unicode whitespace
class to its ASCII part, which is all the transcription engine emits). -/
def isWS (c : Char) : Bool :=
  c = ' ' || c = '\t' || c = '\n' || c = '\r' || c = '\x0b' || c = '\x0c'

/-- JS `String.prototype.trim`: drop whitespace from both ends. -/
def jsTrimL (l : List Char) : List Char :=
  ((l.dropWhile isWS).reverse.dropWhile isWS).reverse

/-- The literal token removed by `newText.replace(/\[BLANK_AUDIO\]/gi, '')`
(line 455), in lowercase for case-insensitive matching. -/
def blankAudioChars : List Char :=
  ['[', 'b', 'l', 'a', 'n', 'k', '_', 'a', 'u', 'd', 'i', 'o', ']']

/-- Case-insensitive "text starts with pattern" (pattern given lowercased),
the matching step of the regex `/\[BLANK_AUDIO\]/gi`. -/
def startsWithCI : List Char → List Char → Bool
  | [], _ => true
  | _ :: _, [] => false
  | p :: ps, c :: cs => c.toLower = p && startsWithCI ps cs

/-- The scan behind `replace(/\[BLANK_AUDIO\]/gi, '')` (line 455): walk the
text left to right; on a case-insensitive occurrence of the 13-character
token, drop its first character and set `skip` so the remaining 12 are
dropped without being rescanned — exactly the non-overlapping global
replacement a `/g` regex performs. -/
def stripBlankGo : List Char → ℕ → List Char
  | [], _ => []
  | _ :: cs, skip + 1 => stripBlankGo cs skip
  | c :: cs, 0 =>
    if startsWithCI blankAudioChars (c :: cs) then stripBlankGo cs 12
    else c :: stripBlankGo cs 0

/-- `replace(/\[BLANK_AUDIO\]/gi, '')` (line 455): remove every
non-overlapping case-insensitive occurrence of the token. -/
def stripBlank (l : List Char) : List Char := stripBlankGo l 0

/-- A character of the class `[\s\[\]()]` from the regex at line 458. -/
def isSpecialChar (c : Char) : Bool :=
  isWS c || c = '[' || c = ']' || c = '(' || c = ')'

/-- `/^[\s\[\]()]*$/.test s` (line 458): every character is whitespace, a
square bracket, or a parenthesis. -/
def onlySpecial (l : List Char) : Bool := l.all isSpecialChar

/-- JS `String.prototype.includes` on character lists (used by the catch
handler at line 471 to test `err.message.includes('decode')`). -/
def containsSub (pat : List Char) (l : List Char) : Bool :=
  match l with
  | [] => pat.isEmpty
  | c :: cs => pat.isPrefixOf (c :: cs) || containsSub pat cs

/-- Lines 451-458 of `processAudio`: given the engine's `result.text`, the
segment that will be appended to the transcript, if any.  `none` means the
transcript is left unchanged: either `result.text` was falsy (empty), or
after trimming, stripping `[BLANK_AUDIO]` tokens and trimming again the
remainder is empty or consists solely of whitespace/bracket characters. -/
def transcribedSegment (raw : String) : Option String :=
  if raw = "" then none
  else
    let t1 := jsTrimL raw.data
    let t2 := jsTrimL (stripBlank t1)
    if t2 ≠ [] ∧ onlySpecial t2 = false then some (String.mk t2) else none

/-- Line 459: `prev + (prev ? ' ' : '') + newText`. -/
def joinSeg (transcript seg : String) : String :=
  transcript ++ (if transcript = "" then "" else " ") ++ seg

/-- Lines 451-461: the transcript update performed after the engine returns. -/
def applyTranscription (raw transcript : String) : String :=
  match transcribedSegment raw with
  | some seg => joinSeg transcript seg
  | none => transcript

/-- Lines 469-477: the user-visible error update of the outer catch handler
for an engine rejection with message `msg`.  An empty message is reported as
`Unknown error` (line 472's `err.message || 'Unknown error'` together with
line 471's `!err.message` test); a message containing `decode` is only
logged (lines 474-477). -/
def engineErrorUpdate (msg : String) (err : Option String) : Option String :=
  if msg = "" then some "Transcription error: Unknown error"
  else if !containsSub "decode".data msg.data then
    some ("Transcription error: " ++ msg)
  else err

/-! ### Audio energy and resampling (lines 346-354, 493-510) -/

/-- The `sumSquares` accumulator of `hasAudioContent` (lines 348-351). -/
def sumSquares (l : List ℚ) : ℚ := (l.map fun x => x * x).sum

/-- `hasAudioContent` (lines 346-354): `Math.sqrt(sumSquares/len) > threshold`.
For the nonnegative thresholds the code passes (default `0.01`, call site
`0.005`), `sqrt m > t` is equivalent to `m > t * t`; the model uses the
squared comparison to stay in exact rational arithmetic. -/
def hasAudioContent (audioData : List ℚ) (threshold : ℚ) : Bool :=
  decide (threshold * threshold < sumSquares audioData / (audioData.length : ℚ))

/-- JS `Math.round`: floor of `x + 1/2` (ties toward positive infinity). -/
def jsRound (x : ℚ) : ℤ := ⌊x + 1 / 2⌋

/-- `Math.round(audioData.length / ratio)` of line 497. -/
def resampleNewLength (len : ℕ) (fromRate toRate : ℚ) : ℕ :=
  (jsRound ((len : ℚ) / (fromRate / toRate))).toNat

/-- `resampleAudio` (lines 493-510): identity at equal rates, otherwise
linear interpolation; array reads are modelled with `getD _ 0` (the bounds
theorem for the claim set shows every read is in bounds). -/
def resampleAudio (audioData : List ℚ) (fromRate toRate : ℚ) : List ℚ :=
  if fromRate = toRate then audioData
  else
    let ratio := fromRate / toRate
    let newLength := resampleNewLength audioData.length fromRate toRate
    (List.range newLength).map fun (i : ℕ) =>
      let index : ℚ := (i : ℚ) * ratio
      let indexFloor : ℤ := ⌊index⌋
      let indexCeil : ℤ := min (indexFloor + 1) ((audioData.length : ℤ) - 1)
      let fraction : ℚ := index - (indexFloor : ℚ)
      audioData.getD indexFloor.toNat 0 * (1 - fraction) +
        audioData.getD indexCeil.toNat 0 * fraction

/-- The claim's linear-interpolation formula for output index `i` of the
resampler: with `r = fromRate / toRate` and `frac = i*r - floor(i*r)`, the
value `audioData[floor(i*r)] * (1 - frac)
+ audioData[min(floor(i*r) + 1, inputLength - 1)] * frac`. -/
def interpAt (audioData : List ℚ) (fromRate toRate : ℚ) (i : ℕ) : ℚ :=
  let r := fromRate / toRate
  let indexFloor : ℤ := ⌊(i : ℚ) * r⌋
  let indexCeil : ℤ := min (indexFloor + 1) ((audioData.length : ℤ) - 1)
  let fraction : ℚ := (i : ℚ) * r - (indexFloor : ℚ)
  audioData.getD indexFloor.toNat 0 * (1 - fraction) +
    audioData.getD indexCeil.toNat 0 * fraction

/-! ### Functional model of `processAudio` (lines 356-490)

One call to `processAudio`, from invocation to settlement of all of its
awaits, as a pure function of the component state and of the results the
environment supplies to the two awaited external calls (container decode and
transcription engine).  Chunks are modelled by their byte sizes (the
`ondataavailable` handler, line 143, only ever stores chunks with
`size > 0`, but `processAudio` re-checks emptiness itself). -/

/-- Result of `audioContext.decodeAudioData` (line 409): the first-channel
samples and the decoded sample rate, or a decode failure. -/
inductive DecodeResult where
  | ok (samples : List ℚ) (sampleRate : ℕ)
  | fail
  deriving DecidableEq

/-- Results supplied by the environment to the awaited external calls of a
single `processAudio` run. -/
structure AudioEnv where
  decodeResult : DecodeResult
  /-- The transcription engine's settlement (line 445): `Except.ok text` for
  a resolved `result.text`, `Except.error msg` for a rejection caught by the
  outer catch at line 469. -/
  engineResult : Except String String

/-- The component state read and written by `processAudio`. -/
structure ProcState where
  /-- `isProcessingRef.current` (line 22), the single-flight busy flag. -/
  isProcessingRef : Bool
  /-- `audioChunksRef.current` (line 19), as a list of chunk byte sizes. -/
  audioChunks : List ℕ
  /-- The `transcript` state string (line 11). -/
  transcript : String
  /-- The `error` state (line 15). -/
  error : Option String
  /-- Whether `transcriberRef.current` is non-null (line 21). -/
  transcriberLoaded : Bool
  deriving DecidableEq

/-- Which external collaborators a `processAudio` run actually invoked. -/
structure CallTrace where
  decoderInvoked : Bool
  engineInvoked : Bool
  deriving DecidableEq

/-- `processAudio` (lines 356-490).  Mirrors the source's guard cascade:
busy/empty/no-transcriber guard (358), flag set and chunk snapshot (363-368),
empty-blob checks (374-404), decode with swallowed failure (407-418),
minimum-length check (424), silence-floor check (432), optional resample
(440-442), engine call (445), transcript append (451-461), error surfacing
for non-decode engine failures (469-477), and unconditional clearing of the
busy flag on every exit path. -/
def processAudio (env : AudioEnv) (s : ProcState) : ProcState × CallTrace :=
  -- line 358: if (isProcessingRef.current || audioChunksRef.current.length === 0
  --            || !transcriberRef.current) return;
  if s.isProcessingRef || s.audioChunks.isEmpty || !s.transcriberLoaded then
    (s, ⟨false, false⟩)
  else
    -- lines 363-368: set the busy flag, snapshot the chunks, clear the ref
    let chunksToProcess := s.audioChunks
    let s := { s with isProcessingRef := true, audioChunks := [] }
    -- line 374: chunksToProcess.length === 0 (unreachable: guarded above)
    if chunksToProcess.isEmpty then ({ s with isProcessingRef := false }, ⟨false, false⟩)
    -- line 384: audioBlob.size === 0
    else if chunksToProcess.sum = 0 then ({ s with isProcessingRef := false }, ⟨false, false⟩)
    -- line 399: arrayBuffer.byteLength === 0 (same total as the blob size)
    else if chunksToProcess.sum = 0 then ({ s with isProcessingRef := false }, ⟨false, false⟩)
    else
      -- line 409: await audioContext.decodeAudioData(...)
      match env.decodeResult with
      | .fail =>
        -- lines 410-418: decode failure is logged and swallowed
        ({ s with isProcessingRef := false }, ⟨true, false⟩)
      | .ok samples rate =>
        -- line 424: audioData.length < 8000
        if samples.length < 8000 then
          ({ s with isProcessingRef := false }, ⟨true, false⟩)
        -- line 432: !hasAudioContent(audioData, 0.005)
        else if !hasAudioContent samples (5 / 1000) then
          ({ s with isProcessingRef := false }, ⟨true, false⟩)
        else
          -- lines 440-442: resample when the decoded rate differs from 16000
          let _audioData := if rate ≠ 16000 then
              resampleAudio samples (rate : ℚ) 16000 else samples
          -- line 445: await transcriberRef.current(audioData, ...)
          match env.engineResult with
          | .ok text =>
            -- lines 451-461: filter and append the returned text
            let s := { s with transcript := applyTranscription text s.transcript }
            ({ s with isProcessingRef := false }, ⟨true, true⟩)
          | .error msg =>
            -- lines 469-477: surface non-decode engine errors only
            let s := { s with error := engineErrorUpdate msg s.error }
            ({ s with isProcessingRef := false }, ⟨true, true⟩)

/-! ### Small-step session machine (lines 113-343, 356-490)

The browser schedules the animation-frame VAD callback, the silence
`setTimeout`, the recorder's `ondataavailable`/`onstop` handlers, the user's
stop click, and the continuations of the awaited promises inside
`processAudio` as interleaved atomic blocks on one event loop.  Each such
block is a `SessTask`; a session run is the replay of an arbitrary task
list.  Because the scheduler is an arbitrary list, every interleaving of
boundary events, stop requests, and decode/engine latencies (and more) is
covered. -/

/-- `MediaRecorder.state` as distinguished by the source's guards. -/
inductive RecState where
  | recording
  | inactive
  deriving DecidableEq

/-- The await point at which an in-flight `processAudio` run is suspended,
with the data its continuation will use. -/
inductive ProcPhase where
  /-- Suspended at `await audioBlob.arrayBuffer()` (line 396), holding the
  snapshotted chunk sizes. -/
  | atArrayBuffer (chunks : List ℕ)
  /-- Suspended at `await audioContext.decodeAudioData(...)` (line 409). -/
  | atDecode (byteLen : ℕ)
  /-- Suspended at the engine call `await transcriberRef.current(...)`
  (line 445), holding the validated (and possibly resampled) PCM data. -/
  | atEngine (audioData : List ℚ)
  deriving DecidableEq

/-- An in-flight `processAudio` run: its suspension point and whether it was
entered from `processAudioAndContinue` (line 323), whose continuation
restarts the recorder, as opposed to the bare call in `stopListening`
(line 223). -/
structure Inflight where
  phase : ProcPhase
  andContinue : Bool
  deriving DecidableEq

/-- The mutable session state: the component's refs and state variables as
read and written by the handlers.  `streamActive` models
`streamRef.current && streamRef.current.active` (the source always checks
presence and activity together, and nulls the ref exactly when it stops the
tracks). -/
structure SessState where
  isProcessingRef : Bool
  audioChunks : List ℕ
  transcript : String
  error : Option String
  transcriberLoaded : Bool
  isListening : Bool
  streamActive : Bool
  /-- `mediaRecorderRef.current`: absent, or its recorder state. -/
  recorder : Option RecState
  /-- `audioContextRef.current` non-null and not closed. -/
  audioCtx : Bool
  /-- `analyserRef.current` non-null. -/
  analyser : Bool
  /-- `silenceTimerRef.current` non-null (pending or already-fired timer id). -/
  silenceTimer : Bool
  /-- `lastSpeechTimeRef.current`, milliseconds. -/
  lastSpeechTime : ℕ
  /-- `hasRecordedSpeechRef.current`, the closure flag of line 238. -/
  hasRecordedSpeech : Bool
  /-- The suspended `processAudio` run, if one is in flight. -/
  inflight : Option Inflight
  deriving DecidableEq

/-- The state right after `startListening` succeeded (lines 113-188):
recording, listening, VAD running, no chunks, no timer, no speech seen by
the fresh closure flag of line 238, nothing in flight. -/
def initSessState (t0 : ℕ) : SessState where
  isProcessingRef := false
  audioChunks := []
  transcript := ""
  error := none
  transcriberLoaded := true
  isListening := true
  streamActive := true
  recorder := some .recording
  audioCtx := true
  analyser := true
  silenceTimer := false
  lastSpeechTime := t0
  hasRecordedSpeech := false
  inflight := none

/-- One atomic event-loop block of the session. -/
inductive SessTask where
  /-- One `checkAudioLevel` frame (lines 240-307) with the computed
  `amplitude` (line 255) and `Date.now()` (line 257). -/
  | vadCheck (amplitude : ℚ) (now : ℕ)
  /-- The silence `setTimeout` callback firing (lines 283-299). -/
  | timerFire
  /-- An `ondataavailable` delivery (lines 142-146) with `event.data.size`. -/
  | dataAvail (size : ℕ)
  /-- The recorder's `onstop` handler (lines 148-156) together with the
  synchronous part of `processAudioAndContinue` (lines 315-323) and of
  `processAudio` up to its first await; `now` is read if the restart block
  runs without suspension. -/
  | recorderOnStop (now : ℕ)
  /-- `await audioBlob.arrayBuffer()` resolving (line 396 continuation). -/
  | resumeArrayBuffer (now : ℕ)
  /-- `await audioContext.decodeAudioData(...)` settling (line 409). -/
  | resumeDecode (res : DecodeResult) (now : ℕ)
  /-- The engine call settling (line 445). -/
  | resumeEngine (res : Except String String) (now : ℕ)
  /-- The user clicking stop: `stopListening` (lines 190-227). -/
  | stopClick

/-- Observable events emitted by a step, in program order within the step. -/
inductive Ev where
  /-- A silence timer was scheduled (line 283). -/
  | timerSet
  /-- A pending silence timer was cleared (lines 194, 265, 317). -/
  | timerCleared
  /-- The silence timer callback stopped the recorder (line 290): the
  utterance-boundary emission. -/
  | boundary
  /-- `stopListening` stopped the recorder (line 202). -/
  | recorderStopSignal
  /-- The capture stream's tracks were stopped (line 210). -/
  | tracksStopped
  /-- The audio context was closed and the analyser released (lines 215-219). -/
  | contextClosed
  /-- `processAudio` passed its guard and set the busy flag (line 363): a
  hand-off was accepted. -/
  | accept
  /-- `processAudio` completed and cleared the busy flag, having appended
  the carried segment to the transcript (`none` when nothing was appended). -/
  | finish (appended : Option String)
  /-- `decodeAudioData` was invoked (line 409). -/
  | decoderCall
  /-- The transcription engine was invoked (line 445). -/
  | engineCall
  /-- The recorder was restarted for the next utterance (line 337). -/
  | restart
  deriving DecidableEq

/-- Lines 317-320 / 194-197: clear a pending silence timer. -/
def clearTimer (s : SessState) : SessState × List Ev :=
  if s.silenceTimer then ({ s with silenceTimer := false }, [.timerCleared])
  else (s, [])

/-- The restart block of `processAudioAndContinue` (lines 326-342). -/
def restartSegment (s : SessState) (now : ℕ) : SessState × List Ev :=
  -- line 326-329: streamRef.current && streamRef.current.active
  --               && mediaRecorderRef.current && !isProcessingRef.current
  if s.streamActive ∧ s.recorder ≠ none ∧ s.isProcessingRef = false then
    -- lines 332-333: clear chunks, reset last speech time
    let s := { s with audioChunks := [], lastSpeechTime := now }
    -- lines 336-338: restart if inactive
    if s.recorder = some .inactive then
      ({ s with recorder := some .recording }, [.restart])
    else (s, [])
  else (s, [])

/-- The synchronous part of `processAudio` up to its first await
(lines 356-396): the single-flight guard, flag set, chunk snapshot, and the
empty-blob early exit.  Returns the new state, the events, and the
suspension (`none` when the call returned synchronously). -/
def procEnter (s : SessState) (andContinue : Bool) :
    SessState × List Ev × Option Inflight :=
  -- line 358
  if s.isProcessingRef || s.audioChunks.isEmpty || !s.transcriberLoaded then
    (s, [], none)
  else
    let chunks := s.audioChunks
    -- lines 363-368
    let s := { s with isProcessingRef := true, audioChunks := [] }
    -- lines 374-388: empty chunk list / zero-size blob: clear flag, return
    if chunks.isEmpty ∨ chunks.sum = 0 then
      ({ s with isProcessingRef := false }, [.accept, .finish none], none)
    else
      let w : Inflight := ⟨.atArrayBuffer chunks, andContinue⟩
      ({ s with inflight := some w }, [.accept], some w)

/-- The transcript append after a resolved engine call (lines 451-461),
on the session state. -/
def engineTextSess (text : String) (s : SessState) : SessState :=
  { s with transcript := applyTranscription text s.transcript }

/-- The error update after a rejected engine call (lines 469-477), on the
session state. -/
def engineErrorSess (msg : String) (s : SessState) : SessState :=
  { s with error := engineErrorUpdate msg s.error }

/-- A `processAudio` run returning (every exit path clears the busy flag,
lines 375/386/401/415/426/434/467/487); when the caller was
`processAudioAndContinue`, its restart continuation runs in the same
microtask chain. -/
def completeProc (s : SessState) (appended : Option String) (andContinue : Bool)
    (now : ℕ) : SessState × List Ev :=
  let s := { s with isProcessingRef := false, inflight := none }
  if andContinue then
    let (s', e) := restartSegment s now
    (s', .finish appended :: e)
  else (s, [.finish appended])

/-- The resource-release part of `stopListening` (lines 190-219): mark not
listening, clear a pending silence timer, stop the recorder if it is not
inactive, stop the stream tracks and null the ref, close the audio context
and release the analyser. -/
def stopReleased (s : SessState) : SessState × List Ev :=
  -- line 191
  let s0 := { s with isListening := false }
  -- lines 194-197
  let p1 := clearTimer s0
  -- lines 200-206
  let p2 :=
    if p1.1.recorder = some RecState.recording then
      ({ p1.1 with recorder := some RecState.inactive }, [Ev.recorderStopSignal])
    else (p1.1, ([] : List Ev))
  -- lines 209-212
  let p3 :=
    if p2.1.streamActive then
      ({ p2.1 with streamActive := false }, [Ev.tracksStopped])
    else (p2.1, ([] : List Ev))
  -- lines 215-219
  let p4 :=
    if p3.1.audioCtx then
      ({ p3.1 with audioCtx := false, analyser := false }, [Ev.contextClosed])
    else ({ p3.1 with analyser := false }, ([] : List Ev))
  (p4.1, p1.2 ++ p2.2 ++ p3.2 ++ p4.2)

/-- One atomic step of the session machine. -/
def step (s : SessState) (t : SessTask) : SessState × List Ev :=
  match t with
  | .vadCheck amplitude now =>
    -- lines 241-243: bail out if the analyser or stream is gone
    if s.analyser = false ∨ s.streamActive = false then (s, [])
    -- line 259: amplitude > silenceThreshold (20)
    else if 20 < amplitude then
      -- lines 261-268: record speech, set the closure flag, clear the timer
      let s := { s with lastSpeechTime := now, hasRecordedSpeech := true }
      clearTimer s
    else
      -- lines 271-300: silence branch
      if s.hasRecordedSpeech = true ∧ 1500 ≤ now - s.lastSpeechTime ∧
          s.audioChunks ≠ [] ∧ s.isProcessingRef = false ∧
          s.silenceTimer = false ∧ s.recorder = some .recording then
        ({ s with silenceTimer := true }, [.timerSet])
      else (s, [])
  | .timerFire =>
    -- the callback of the timer scheduled at line 283; a no-op if no timer
    -- is pending
    if s.silenceTimer = false then (s, [])
    else if s.recorder = some .recording ∧ s.streamActive ∧
        s.isProcessingRef = false then
      -- line 290: mediaRecorderRef.current.stop() — the boundary; the fired
      -- timer id stays in silenceTimerRef until cleared at line 317 or 194
      ({ s with recorder := some .inactive }, [.boundary])
    else
      -- lines 296-297
      ({ s with silenceTimer := false }, [])
  | .dataAvail size =>
    -- lines 142-146: store the chunk if it has data
    if 0 < size then ({ s with audioChunks := s.audioChunks ++ [size] }, [])
    else (s, [])
  | .recorderOnStop now =>
    -- lines 148-156: only proceed if the stream is live and nothing is
    -- being processed
    if s.streamActive ∧ s.isProcessingRef = false then
      -- processAudioAndContinue, lines 317-320
      let p1 := clearTimer s
      -- `await processAudio()` (line 323): synchronous part
      let p2 := procEnter p1.1 true
      match p2.2.2 with
      | some _ => (p2.1, p1.2 ++ p2.2.1)
      | none =>
        -- processAudio returned synchronously; the restart continuation
        -- (lines 326-342) runs in the same microtask chain
        let p3 := restartSegment p2.1 now
        (p3.1, p1.2 ++ p2.2.1 ++ p3.2)
    else (s, [])
  | .resumeArrayBuffer now =>
    match s.inflight with
    | some ⟨.atArrayBuffer chunks, c⟩ =>
      -- line 399: arrayBuffer.byteLength === 0
      if chunks.sum = 0 then completeProc s none c now
      else
        -- line 409: invoke decodeAudioData and suspend
        ({ s with inflight := some ⟨.atDecode chunks.sum, c⟩ }, [.decoderCall])
    | _ => (s, [])
  | .resumeDecode res now =>
    match s.inflight with
    | some ⟨.atDecode _, c⟩ =>
      match res with
      | .fail =>
        -- lines 410-418: swallow the decode failure
        completeProc s none c now
      | .ok samples rate =>
        -- line 424
        if samples.length < 8000 then completeProc s none c now
        -- line 432
        else if !hasAudioContent samples (5 / 1000) then
          completeProc s none c now
        else
          -- lines 440-445: resample if needed, invoke the engine, suspend
          let audioData := if rate ≠ 16000 then
              resampleAudio samples (rate : ℚ) 16000 else samples
          ({ s with inflight := some ⟨.atEngine audioData, c⟩ }, [.engineCall])
    | _ => (s, [])
  | .resumeEngine res now =>
    match s.inflight with
    | some ⟨.atEngine _, c⟩ =>
      match res with
      | .ok text =>
        -- lines 451-461
        completeProc (engineTextSess text s) (transcribedSegment text) c now
      | .error msg =>
        -- lines 469-477
        completeProc (engineErrorSess msg s) none c now
    | _ => (s, [])
  | .stopClick =>
    -- lines 191-219: clear listening state and release resources
    let p := stopReleased s
    -- lines 222-226: flush remaining chunks through one final processAudio
    if p.1.audioChunks ≠ [] ∧ p.1.isProcessingRef = false then
      let q := procEnter p.1 false
      (q.1, p.2 ++ q.2.1)
    else p

/-- Replay a task list from a state, collecting the emitted events. -/
def replay (s : SessState) : List SessTask → SessState × List Ev
  | [] => (s, [])
  | t :: ts =>
    ((replay (step s t).1 ts).1, (step s t).2 ++ (replay (step s t).1 ts).2)

/-! ### Observables of a session trace -/

def isAcceptEv : Ev → Bool
  | .accept => true
  | _ => false

def isFinishEv : Ev → Bool
  | .finish _ => true
  | _ => false

def isBoundaryEv : Ev → Bool
  | .boundary => true
  | _ => false

/-- The number of accepted hand-offs in a trace. -/
def acceptCount (evs : List Ev) : ℕ := evs.countP isAcceptEv

/-- The number of completed `processAudio` runs in a trace. -/
def finishCount (evs : List Ev) : ℕ := evs.countP isFinishEv

/-- The number of utterance boundaries fired in a trace. -/
def boundaryCount (evs : List Ev) : ℕ := evs.countP isBoundaryEv

/-- The transcript segments carried by the completion events of a trace, in
trace order. -/
def finishTexts (evs : List Ev) : List String :=
  evs.filterMap fun e => match e with
    | .finish o => o
    | _ => none

/-- `1` when the busy flag is set, else `0`. -/
def flagBit (s : SessState) : ℕ := if s.isProcessingRef then 1 else 0

/-- Whether a task is a VAD frame whose amplitude exceeds the speech
threshold of line 236 (that is, a frame in which speech is detected). -/
def isSpeechFrame : SessTask → Bool
  | .vadCheck amplitude _ => decide (20 < amplitude)
  | _ => false

/-- A task list containing no frame with speech above the threshold. -/
def noSpeech (ts : List SessTask) : Bool := ts.all fun t => !isSpeechFrame t

/-! ### Concrete sessions used to check the claims on explicit inputs -/

/-- A session opening: one loud frame (amplitude 100 at time 0), a recorded
chunk, a silent frame 1600 ms later (exceeding the 1500 ms silence
duration), and the silence timer firing. -/
def speechThenSilence : List SessTask :=
  [SessTask.vadCheck 100 0, SessTask.dataAvail 1, SessTask.vadCheck 0 1600,
   SessTask.timerFire]

/-- A continuation in which no frame ever exceeds the speech threshold: the
recorder's onstop hand-off, a failing decode, a silent chunk, a silent frame
1600 ms after the restart, and the timer firing again. -/
def silentContinuation : List SessTask :=
  [SessTask.recorderOnStop 1700, SessTask.resumeArrayBuffer 1700,
   SessTask.resumeDecode DecodeResult.fail 1700, SessTask.dataAvail 1,
   SessTask.vadCheck 0 3300, SessTask.timerFire]

/-! ### Supporting lemmas -/


lemma acceptCount_append (a b : List Ev) :
    acceptCount (a ++ b) = acceptCount a + acceptCount b :=
  List.countP_append ..

lemma finishCount_append (a b : List Ev) :
    finishCount (a ++ b) = finishCount a + finishCount b :=
  List.countP_append ..

lemma finishTexts_append (a b : List Ev) :
    finishTexts (a ++ b) = finishTexts a ++ finishTexts b :=
  List.filterMap_append ..

lemma flagBit_congr {s t : SessState} (h : s.isProcessingRef = t.isProcessingRef) :
    flagBit s = flagBit t := by
  unfold flagBit; rw [h]

lemma clearTimer_spec (s : SessState) :
    (clearTimer s).1.isProcessingRef = s.isProcessingRef ∧
    (clearTimer s).1.inflight = s.inflight ∧
    (clearTimer s).1.transcript = s.transcript ∧
    (clearTimer s).1.audioChunks = s.audioChunks ∧
    (clearTimer s).1.transcriberLoaded = s.transcriberLoaded ∧
    acceptCount (clearTimer s).2 = 0 ∧ finishCount (clearTimer s).2 = 0 ∧
    finishTexts (clearTimer s).2 = [] := by
  unfold clearTimer
  split_ifs <;>
    simp [acceptCount, finishCount, finishTexts, isAcceptEv, isFinishEv]

lemma restartSegment_spec (s : SessState) (now : ℕ) :
    (restartSegment s now).1.isProcessingRef = s.isProcessingRef ∧
    (restartSegment s now).1.inflight = s.inflight ∧
    (restartSegment s now).1.transcript = s.transcript ∧
    acceptCount (restartSegment s now).2 = 0 ∧
    finishCount (restartSegment s now).2 = 0 ∧
    finishTexts (restartSegment s now).2 = [] := by
  by_cases h1 : s.streamActive = true ∧ s.recorder ≠ none ∧ s.isProcessingRef = false
  · by_cases h2 : s.recorder = some RecState.inactive <;>
      simp [restartSegment, h1, h2, acceptCount, finishCount, finishTexts,
        isAcceptEv, isFinishEv]
  · simp [restartSegment, h1, acceptCount, finishCount, finishTexts,
      isAcceptEv, isFinishEv]

lemma restartSegment_evs (s : SessState) (now : ℕ) :
    (restartSegment s now).2 = [] ∨ (restartSegment s now).2 = [Ev.restart] := by
  by_cases h1 : s.streamActive = true ∧ s.recorder ≠ none ∧ s.isProcessingRef = false
  · by_cases h2 : s.recorder = some RecState.inactive <;>
      simp [restartSegment, h1, h2]
  · simp [restartSegment, h1]

lemma stopReleased_spec (s : SessState) :
    (stopReleased s).1.isProcessingRef = s.isProcessingRef ∧
    (stopReleased s).1.inflight = s.inflight ∧
    (stopReleased s).1.transcript = s.transcript ∧
    (stopReleased s).1.audioChunks = s.audioChunks ∧
    (stopReleased s).1.transcriberLoaded = s.transcriberLoaded ∧
    acceptCount (stopReleased s).2 = 0 ∧ finishCount (stopReleased s).2 = 0 ∧
    finishTexts (stopReleased s).2 = [] := by
  by_cases hT : s.silenceTimer = true <;>
    by_cases hR : s.recorder = some RecState.recording <;>
      by_cases hSA : s.streamActive = true <;>
        by_cases hC : s.audioCtx = true <;>
          simp [stopReleased, clearTimer, hT, hR, hSA, hC, acceptCount,
            finishCount, finishTexts, isAcceptEv, isFinishEv]

lemma procEnter_spec (s : SessState) (c : Bool)
    (hInv : s.isProcessingRef = s.inflight.isSome) :
    (procEnter s c).1.isProcessingRef = ((procEnter s c).1.inflight).isSome ∧
    acceptCount (procEnter s c).2.1 + flagBit s
      = finishCount (procEnter s c).2.1 + flagBit (procEnter s c).1 ∧
    (procEnter s c).1.transcript = s.transcript ∧
    finishTexts (procEnter s c).2.1 = [] := by
  unfold procEnter
  set_option linter.unnecessarySeqFocus false in
  split_ifs <;>
    simp_all [acceptCount, finishCount, finishTexts, flagBit, isAcceptEv,
      isFinishEv] <;>
    split_ifs <;>
    simp_all [acceptCount, finishCount, finishTexts, flagBit, isAcceptEv, isFinishEv]

lemma completeProc_spec (s : SessState) (app : Option String) (c : Bool) (now : ℕ)
    (hflag : s.isProcessingRef = true) :
    (completeProc s app c now).1.isProcessingRef
      = ((completeProc s app c now).1.inflight).isSome ∧
    acceptCount (completeProc s app c now).2 + flagBit s
      = finishCount (completeProc s app c now).2 + flagBit (completeProc s app c now).1 ∧
    (completeProc s app c now).1.transcript = s.transcript ∧
    finishTexts (completeProc s app c now).2 = app.toList := by
  obtain ⟨hrf, hri, hrt, -, -, -⟩ := restartSegment_spec
    { s with isProcessingRef := false, inflight := none } now
  have hre := restartSegment_evs
    { s with isProcessingRef := false, inflight := none } now
  unfold completeProc
  cases app <;>
    (split_ifs with hc
     · rcases hre with h | h <;>
         simp_all [acceptCount, finishCount, finishTexts, flagBit, isAcceptEv,
           isFinishEv, hflag]
     · simp_all [acceptCount, finishCount, finishTexts, flagBit, isAcceptEv,
         isFinishEv, hflag])

set_option maxHeartbeats 1600000 in
lemma step_master (s : SessState) (t : SessTask)
    (hInv : s.isProcessingRef = s.inflight.isSome) :
    (step s t).1.isProcessingRef = ((step s t).1.inflight).isSome ∧
    acceptCount (step s t).2 + flagBit s
      = finishCount (step s t).2 + flagBit (step s t).1 ∧
    (step s t).1.transcript = (finishTexts (step s t).2).foldl joinSeg s.transcript := by
  cases t with
  | vadCheck amp now =>
    simp only [step, clearTimer]
    split_ifs <;>
      simp_all [acceptCount, finishCount, finishTexts, flagBit, isAcceptEv, isFinishEv]
  | timerFire =>
    simp only [step]
    split_ifs <;>
      simp_all [acceptCount, finishCount, finishTexts, flagBit, isAcceptEv, isFinishEv]
  | dataAvail size =>
    simp only [step]
    split_ifs <;>
      simp_all [acceptCount, finishCount, finishTexts, flagBit, isAcceptEv, isFinishEv]
  | recorderOnStop now =>
    simp only [step]
    split_ifs with hg
    · obtain ⟨c1f, c1i, c1t, c1a, c1l, c1acc, c1fin, c1tx⟩ := clearTimer_spec s
      have hInv1 : (clearTimer s).1.isProcessingRef
          = ((clearTimer s).1.inflight).isSome := by rw [c1f, c1i]; exact hInv
      obtain ⟨p1, p2, p3, p4⟩ := procEnter_spec (clearTimer s).1 true hInv1
      cases hsusp : (procEnter (clearTimer s).1 true).2.2 with
      | some w =>
        dsimp only
        refine ⟨p1, ?_, ?_⟩
        · rw [acceptCount_append, finishCount_append, c1acc, c1fin,
            ← flagBit_congr c1f]
          omega
        · rw [p3, c1t, finishTexts_append, c1tx, p4]
          simp
      | none =>
        dsimp only
        obtain ⟨rsf, rsi, rst, rsacc, rsfin, rstx⟩ :=
          restartSegment_spec (procEnter (clearTimer s).1 true).1 now
        refine ⟨?_, ?_, ?_⟩
        · rw [rsf, rsi]; exact p1
        · rw [acceptCount_append, acceptCount_append, finishCount_append,
            finishCount_append, c1acc, c1fin, rsacc, rsfin,
            ← flagBit_congr c1f, flagBit_congr rsf]
          omega
        · rw [rst, p3, c1t, finishTexts_append, finishTexts_append, c1tx, p4, rstx]
          simp
    · simp_all [acceptCount, finishCount, finishTexts, flagBit]
  | resumeArrayBuffer now =>
    simp only [step]
    cases hw : s.inflight with
    | none => simp_all [acceptCount, finishCount, finishTexts, flagBit, isAcceptEv, isFinishEv]
    | some w =>
      cases w with
      | mk ph c =>
        cases ph with
        | atDecode n =>
          simp_all [acceptCount, finishCount, finishTexts, flagBit, isAcceptEv, isFinishEv]
        | atEngine a =>
          simp_all [acceptCount, finishCount, finishTexts, flagBit, isAcceptEv, isFinishEv]
        | atArrayBuffer chunks =>
          have hflag : s.isProcessingRef = true := by rw [hInv, hw]; rfl
          obtain ⟨q1, q2, q3, q4⟩ := completeProc_spec s none c now hflag
          dsimp only
          by_cases hsum : chunks.sum = 0
          · rw [if_pos hsum]
            refine ⟨q1, q2, ?_⟩
            rw [q3, q4]
            simp
          · rw [if_neg hsum]
            simp [acceptCount, finishCount, finishTexts, flagBit, isAcceptEv,
              isFinishEv, hflag]
  | resumeDecode res now =>
    simp only [step]
    cases hw : s.inflight with
    | none => simp_all [acceptCount, finishCount, finishTexts, flagBit, isAcceptEv, isFinishEv]
    | some w =>
      cases w with
      | mk ph c =>
        cases ph with
        | atArrayBuffer chunks =>
          simp_all [acceptCount, finishCount, finishTexts, flagBit, isAcceptEv, isFinishEv]
        | atEngine a =>
          simp_all [acceptCount, finishCount, finishTexts, flagBit, isAcceptEv, isFinishEv]
        | atDecode n =>
          have hflag : s.isProcessingRef = true := by rw [hInv, hw]; rfl
          obtain ⟨q1, q2, q3, q4⟩ := completeProc_spec s none c now hflag
          cases res with
          | fail =>
            dsimp only
            refine ⟨q1, q2, ?_⟩
            rw [q3, q4]
            simp
          | ok samples rate =>
            dsimp only
            by_cases hlen : samples.length < 8000
            · rw [if_pos hlen]
              refine ⟨q1, q2, ?_⟩
              rw [q3, q4]
              simp
            · rw [if_neg hlen]
              cases hha : hasAudioContent samples (5 / 1000) with
              | false =>
                rw [if_pos (show (!false) = true from rfl)]
                refine ⟨q1, q2, ?_⟩
                rw [q3, q4]
                simp
              | true =>
                rw [if_neg (show ¬(!true) = true from by simp)]
                simp [acceptCount, finishCount, finishTexts, flagBit,
                  isAcceptEv, isFinishEv, hflag]
  | resumeEngine res now =>
    simp only [step]
    cases hw : s.inflight with
    | none => simp_all [acceptCount, finishCount, finishTexts, flagBit, isAcceptEv, isFinishEv]
    | some w =>
      cases w with
      | mk ph c =>
        cases ph with
        | atArrayBuffer chunks =>
          simp_all [acceptCount, finishCount, finishTexts, flagBit, isAcceptEv, isFinishEv]
        | atDecode n =>
          simp_all [acceptCount, finishCount, finishTexts, flagBit, isAcceptEv, isFinishEv]
        | atEngine a =>
          have hflag : s.isProcessingRef = true := by rw [hInv, hw]; rfl
          cases res with
          | error msg =>
            dsimp only
            obtain ⟨q1, q2, q3, q4⟩ := completeProc_spec
              (engineErrorSess msg s) none c now hflag
            refine ⟨q1, q2, ?_⟩
            rw [q3, q4]
            simp [engineErrorSess]
          | ok text =>
            dsimp only
            obtain ⟨q1, q2, q3, q4⟩ := completeProc_spec
              (engineTextSess text s) (transcribedSegment text) c now hflag
            refine ⟨q1, q2, ?_⟩
            rw [q3, q4]
            show applyTranscription text s.transcript
              = ((transcribedSegment text).toList).foldl joinSeg s.transcript
            cases hseg : transcribedSegment text with
            | none => simp [applyTranscription, hseg]
            | some seg => simp [applyTranscription, hseg, joinSeg]
  | stopClick =>
    simp only [step]
    obtain ⟨srf, sri, srt, sra, srl, sracc, srfin, srtx⟩ := stopReleased_spec s
    split_ifs with hc
    · have hInv1 : (stopReleased s).1.isProcessingRef
          = ((stopReleased s).1.inflight).isSome := by rw [srf, sri]; exact hInv
      obtain ⟨p1, p2, p3, p4⟩ := procEnter_spec (stopReleased s).1 false hInv1
      dsimp only
      refine ⟨p1, ?_, ?_⟩
      · rw [acceptCount_append, finishCount_append, sracc, srfin,
          ← flagBit_congr srf]
        omega
      · rw [p3, srt, finishTexts_append, srtx, p4]
        simp
    · refine ⟨?_, ?_, ?_⟩
      · rw [srf, sri]; exact hInv
      · rw [sracc, srfin, flagBit_congr srf]
      · rw [srt, srtx]; simp



lemma boundaryCount_append (a b : List Ev) :
    boundaryCount (a ++ b) = boundaryCount a + boundaryCount b :=
  List.countP_append ..

lemma replay_master (ts : List SessTask) : ∀ (s : SessState),
    s.isProcessingRef = s.inflight.isSome →
    (replay s ts).1.isProcessingRef = ((replay s ts).1.inflight).isSome ∧
    acceptCount (replay s ts).2 + flagBit s
      = finishCount (replay s ts).2 + flagBit (replay s ts).1 ∧
    (replay s ts).1.transcript
      = (finishTexts (replay s ts).2).foldl joinSeg s.transcript := by
  induction ts with
  | nil =>
    intro s h
    simp [replay, h, acceptCount, finishCount, finishTexts]
  | cons t ts ih =>
    intro s h
    obtain ⟨h1, h2, h3⟩ := step_master s t h
    obtain ⟨g1, g2, g3⟩ := ih (step s t).1 h1
    simp only [replay]
    refine ⟨g1, ?_, ?_⟩
    · rw [acceptCount_append, finishCount_append]
      omega
    · rw [finishTexts_append, List.foldl_append, g3, h3]

lemma clearTimer_evs (s : SessState) :
    (clearTimer s).2 = [] ∨ (clearTimer s).2 = [Ev.timerCleared] := by
  unfold clearTimer
  split_ifs <;> simp

lemma procEnter_evs (s : SessState) (c : Bool) :
    Ev.restart ∉ (procEnter s c).2.1 ∧ boundaryCount (procEnter s c).2.1 = 0 ∧
    (procEnter s c).1.hasRecordedSpeech = s.hasRecordedSpeech ∧
    (procEnter s c).1.silenceTimer = s.silenceTimer := by
  unfold procEnter
  set_option linter.unnecessarySeqFocus false in
  split_ifs <;> simp_all [boundaryCount, isBoundaryEv] <;>
    split_ifs <;> simp_all [boundaryCount, isBoundaryEv]

lemma procEnter_none (s : SessState) (c : Bool)
    (h : (procEnter s c).2.2 = none) :
    (procEnter s c).1.isProcessingRef = s.isProcessingRef ∧
    (procEnter s c).1.inflight = s.inflight := by
  unfold procEnter at h ⊢
  split_ifs at h ⊢ with h1
  · simp
  · by_cases hsum : s.audioChunks.sum = 0 <;> simp_all

lemma stopReleased_evs (s : SessState) :
    Ev.restart ∉ (stopReleased s).2 ∧ boundaryCount (stopReleased s).2 = 0 ∧
    (stopReleased s).1.hasRecordedSpeech = s.hasRecordedSpeech ∧
    (stopReleased s).1.silenceTimer = false := by
  by_cases hT : s.silenceTimer = true <;>
    by_cases hR : s.recorder = some RecState.recording <;>
      by_cases hSA : s.streamActive = true <;>
        by_cases hC : s.audioCtx = true <;>
          simp [stopReleased, clearTimer, hT, hR, hSA, hC, boundaryCount,
            isBoundaryEv]

lemma restartSegment_state (s : SessState) (now : ℕ) :
    (restartSegment s now).1.hasRecordedSpeech = s.hasRecordedSpeech ∧
    (restartSegment s now).1.silenceTimer = s.silenceTimer ∧
    boundaryCount (restartSegment s now).2 = 0 := by
  by_cases h1 : s.streamActive = true ∧ s.recorder ≠ none ∧ s.isProcessingRef = false
  · by_cases h2 : s.recorder = some RecState.inactive <;>
      simp [restartSegment, h1, h2, boundaryCount, isBoundaryEv]
  · simp [restartSegment, h1, boundaryCount, isBoundaryEv]

lemma completeProc_done (s : SessState) (app : Option String) (c : Bool) (now : ℕ) :
    (completeProc s app c now).1.isProcessingRef = false ∧
    (completeProc s app c now).1.inflight = none ∧
    (completeProc s app c now).1.hasRecordedSpeech = s.hasRecordedSpeech ∧
    (completeProc s app c now).1.silenceTimer = s.silenceTimer ∧
    boundaryCount (completeProc s app c now).2 = 0 := by
  obtain ⟨hrf, hri, -, -, -, -⟩ := restartSegment_spec
    { s with isProcessingRef := false, inflight := none } now
  obtain ⟨hh, ht, hb⟩ := restartSegment_state
    { s with isProcessingRef := false, inflight := none } now
  have hre := restartSegment_evs
    { s with isProcessingRef := false, inflight := none } now
  unfold completeProc
  split_ifs with hc
  · rcases hre with h | h <;>
      simp_all [boundaryCount, isBoundaryEv]
  · simp_all [boundaryCount, isBoundaryEv]



lemma clearTimer_vad (s : SessState) :
    (clearTimer s).1.hasRecordedSpeech = s.hasRecordedSpeech ∧
    (clearTimer s).1.silenceTimer = false ∧
    boundaryCount (clearTimer s).2 = 0 := by
  unfold clearTimer
  split_ifs <;> simp_all [boundaryCount, isBoundaryEv]

set_option maxHeartbeats 1600000 in
lemma step_restart (s : SessState) (t : SessTask)
    (hInv : s.isProcessingRef = s.inflight.isSome)
    (hmem : Ev.restart ∈ (step s t).2) :
    (step s t).1.isProcessingRef = false ∧ (step s t).1.inflight = none := by
  cases t with
  | vadCheck amp now =>
    exfalso
    revert hmem
    simp only [step, clearTimer]
    split_ifs <;> simp
  | timerFire =>
    exfalso
    revert hmem
    simp only [step]
    split_ifs <;> simp
  | dataAvail size =>
    exfalso
    revert hmem
    simp only [step]
    split_ifs <;> simp
  | recorderOnStop now =>
    simp only [step] at hmem ⊢
    split_ifs at hmem ⊢ with hg
    · cases hsusp : (procEnter (clearTimer s).1 true).2.2 with
      | some w =>
        try rw [hsusp] at hmem
        try dsimp only at hmem
        exfalso
        rcases List.mem_append.mp hmem with h2 | h2
        · rcases clearTimer_evs s with h | h <;> rw [h] at h2 <;> simp at h2
        · exact (procEnter_evs (clearTimer s).1 true).1 h2
      | none =>
        try rw [hsusp] at hmem
        try rw [hsusp]
        try dsimp only at hmem
        dsimp only
        obtain ⟨pf, pi⟩ := procEnter_none (clearTimer s).1 true hsusp
        obtain ⟨c1f, c1i, -, -, -, -, -, -⟩ := clearTimer_spec s
        obtain ⟨rsf, rsi, -, -, -, -⟩ :=
          restartSegment_spec (procEnter (clearTimer s).1 true).1 now
        have hflag : s.isProcessingRef = false := hg.2
        have hnone : s.inflight = none := by
          rw [hflag] at hInv
          exact (Option.not_isSome_iff_eq_none.mp (by rw [← hInv]; simp)).symm ▸ rfl
        constructor
        · rw [rsf, pf, c1f, hflag]
        · rw [rsi, pi, c1i]
          rw [hflag] at hInv
          cases hi : s.inflight with
          | none => rfl
          | some w => rw [hi] at hInv; simp at hInv
    · simp at hmem
  | resumeArrayBuffer now =>
    simp only [step] at hmem ⊢
    cases hw : s.inflight with
    | none =>
      rw [hw] at hmem
      simp at hmem
    | some w =>
      rw [hw] at hmem
      cases w with
      | mk ph c =>
        cases ph with
        | atDecode n => simp at hmem
        | atEngine a => simp at hmem
        | atArrayBuffer chunks =>
          dsimp only at hmem ⊢
          by_cases hsum : chunks.sum = 0
          · rw [if_pos hsum]
            exact ⟨(completeProc_done s none c now).1,
              (completeProc_done s none c now).2.1⟩
          · rw [if_neg hsum] at hmem
            simp at hmem
  | resumeDecode res now =>
    simp only [step] at hmem ⊢
    cases hw : s.inflight with
    | none =>
      rw [hw] at hmem
      simp at hmem
    | some w =>
      rw [hw] at hmem
      cases w with
      | mk ph c =>
        cases ph with
        | atArrayBuffer chunks => simp at hmem
        | atEngine a => simp at hmem
        | atDecode n =>
          cases res with
          | fail =>
            exact ⟨(completeProc_done s none c now).1,
              (completeProc_done s none c now).2.1⟩
          | ok samples rate =>
            dsimp only at hmem ⊢
            by_cases hlen : samples.length < 8000
            · rw [if_pos hlen]
              exact ⟨(completeProc_done s none c now).1,
                (completeProc_done s none c now).2.1⟩
            · rw [if_neg hlen] at hmem ⊢
              cases hha : hasAudioContent samples (5 / 1000) with
              | false =>
                rw [if_pos (show (!false) = true from rfl)]
                exact ⟨(completeProc_done s none c now).1,
                  (completeProc_done s none c now).2.1⟩
              | true =>
                exfalso
                rw [hha, if_neg (show ¬(!true) = true from by simp)] at hmem
                simp at hmem
  | resumeEngine res now =>
    simp only [step] at hmem ⊢
    cases hw : s.inflight with
    | none =>
      rw [hw] at hmem
      simp at hmem
    | some w =>
      rw [hw] at hmem
      cases w with
      | mk ph c =>
        cases ph with
        | atArrayBuffer chunks => simp at hmem
        | atDecode n => simp at hmem
        | atEngine a =>
          dsimp only
          cases res with
          | error msg =>
            exact ⟨(completeProc_done (engineErrorSess msg s) none c now).1,
              (completeProc_done (engineErrorSess msg s) none c now).2.1⟩
          | ok text =>
            exact ⟨(completeProc_done (engineTextSess text s)
                (transcribedSegment text) c now).1,
              (completeProc_done (engineTextSess text s)
                (transcribedSegment text) c now).2.1⟩
  | stopClick =>
    exfalso
    simp only [step] at hmem
    have hsr := (stopReleased_evs s).1
    split_ifs at hmem with hc
    · dsimp only at hmem
      have hpe := (procEnter_evs (stopReleased s).1 false).1
      rcases List.mem_append.mp hmem with h | h
      · exact hsr h
      · exact hpe h
    · exact hsr hmem

lemma silent_step (s : SessState) (t : SessTask)
    (hq : isSpeechFrame t = false)
    (hspeech : s.hasRecordedSpeech = false) (htimer : s.silenceTimer = false) :
    (step s t).1.hasRecordedSpeech = false ∧
    (step s t).1.silenceTimer = false ∧
    boundaryCount (step s t).2 = 0 := by
  cases t with
  | vadCheck amp now =>
    simp only [step, clearTimer]
    split_ifs <;>
      simp_all [isSpeechFrame, boundaryCount, isBoundaryEv]
  | timerFire =>
    simp only [step]
    split_ifs <;> simp_all [boundaryCount, isBoundaryEv]
  | dataAvail size =>
    simp only [step]
    split_ifs <;> simp_all [boundaryCount, isBoundaryEv]
  | recorderOnStop now =>
    simp only [step]
    split_ifs with hg
    · obtain ⟨c1h, c1t, c1b⟩ := clearTimer_vad s
      obtain ⟨-, -, peh, pet⟩ := procEnter_evs (clearTimer s).1 true
      have peb := (procEnter_evs (clearTimer s).1 true).2.1
      cases hsusp : (procEnter (clearTimer s).1 true).2.2 with
      | some w =>
        dsimp only
        refine ⟨?_, ?_, ?_⟩
        · rw [peh, c1h]; exact hspeech
        · rw [pet, c1t]
        · rw [boundaryCount_append, c1b, peb]
      | none =>
        dsimp only
        obtain ⟨rsh, rst, rsb⟩ :=
          restartSegment_state (procEnter (clearTimer s).1 true).1 now
        refine ⟨?_, ?_, ?_⟩
        · rw [rsh, peh, c1h]; exact hspeech
        · rw [rst, pet, c1t]
        · rw [boundaryCount_append, boundaryCount_append, c1b, peb, rsb]
    · exact ⟨hspeech, htimer, rfl⟩
  | resumeArrayBuffer now =>
    simp only [step]
    cases hw : s.inflight with
    | none => simp_all [boundaryCount]
    | some w =>
      cases w with
      | mk ph c =>
        cases ph with
        | atDecode n => simp_all [boundaryCount]
        | atEngine a => simp_all [boundaryCount]
        | atArrayBuffer chunks =>
          dsimp only
          obtain ⟨-, -, qh, qt, qb⟩ := completeProc_done s none c now
          by_cases hsum : chunks.sum = 0
          · rw [if_pos hsum]
            exact ⟨qh.trans hspeech, qt.trans htimer, qb⟩
          · rw [if_neg hsum]
            simp_all [boundaryCount, isBoundaryEv]
  | resumeDecode res now =>
    simp only [step]
    cases hw : s.inflight with
    | none => simp_all [boundaryCount]
    | some w =>
      cases w with
      | mk ph c =>
        cases ph with
        | atArrayBuffer chunks => simp_all [boundaryCount]
        | atEngine a => simp_all [boundaryCount]
        | atDecode n =>
          obtain ⟨-, -, qh, qt, qb⟩ := completeProc_done s none c now
          cases res with
          | fail => exact ⟨qh.trans hspeech, qt.trans htimer, qb⟩
          | ok samples rate =>
            dsimp only
            by_cases hlen : samples.length < 8000
            · rw [if_pos hlen]
              exact ⟨qh.trans hspeech, qt.trans htimer, qb⟩
            · rw [if_neg hlen]
              cases hha : hasAudioContent samples (5 / 1000) with
              | false =>
                rw [if_pos (show (!false) = true from rfl)]
                exact ⟨qh.trans hspeech, qt.trans htimer, qb⟩
              | true =>
                rw [if_neg (show ¬(!true) = true from by simp)]
                simp_all [boundaryCount, isBoundaryEv]
  | resumeEngine res now =>
    simp only [step]
    cases hw : s.inflight with
    | none => simp_all [boundaryCount]
    | some w =>
      cases w with
      | mk ph c =>
        cases ph with
        | atArrayBuffer chunks => simp_all [boundaryCount]
        | atDecode n => simp_all [boundaryCount]
        | atEngine a =>
          dsimp only
          cases res with
          | error msg =>
            obtain ⟨-, -, qh, qt, qb⟩ :=
              completeProc_done (engineErrorSess msg s) none c now
            exact ⟨qh.trans hspeech, qt.trans htimer, qb⟩
          | ok text =>
            obtain ⟨-, -, qh, qt, qb⟩ := completeProc_done (engineTextSess text s)
              (transcribedSegment text) c now
            exact ⟨qh.trans hspeech, qt.trans htimer, qb⟩
  | stopClick =>
    simp only [step]
    obtain ⟨-, srb, srh, srt⟩ := stopReleased_evs s
    split_ifs with hc
    · obtain ⟨-, peb, peh, pet⟩ := procEnter_evs (stopReleased s).1 false
      dsimp only
      refine ⟨?_, ?_, ?_⟩
      · rw [peh, srh]; exact hspeech
      · rw [pet, srt]
      · rw [boundaryCount_append, srb, peb]
    · exact ⟨srh.trans hspeech, srt, srb⟩

lemma silent_replay (ts : List SessTask) : ∀ (s : SessState),
    noSpeech ts = true →
    s.hasRecordedSpeech = false → s.silenceTimer = false →
    (replay s ts).1.hasRecordedSpeech = false ∧
    (replay s ts).1.silenceTimer = false ∧
    boundaryCount (replay s ts).2 = 0 := by
  induction ts with
  | nil =>
    intro s _ h1 h2
    exact ⟨h1, h2, rfl⟩
  | cons t ts ih =>
    intro s hns h1 h2
    have hq : isSpeechFrame t = false := by
      simp [noSpeech, List.all_cons] at hns
      exact hns.1
    have hrest : noSpeech ts = true := by
      simp [noSpeech, List.all_cons] at hns ⊢
      exact hns.2
    obtain ⟨a1, a2, a3⟩ := silent_step s t hq h1 h2
    obtain ⟨b1, b2, b3⟩ := ih (step s t).1 hrest a1 a2
    simp only [replay]
    exact ⟨b1, b2, by rw [boundaryCount_append, a3, b3]⟩

/-! ### Claim checks -/


lemma stopReleased_tracks (s : SessState) (h : s.streamActive = true) :
    Ev.tracksStopped ∈ (stopReleased s).2 := by
  by_cases hT : s.silenceTimer = true <;>
    by_cases hR : s.recorder = some RecState.recording <;>
      by_cases hC : s.audioCtx = true <;>
        simp [stopReleased, clearTimer, hT, hR, h, hC]

lemma procEnter_accept (s : SessState) (c : Bool)
    (h1 : s.isProcessingRef = false) (h2 : s.audioChunks.sum ≠ 0)
    (h3 : s.transcriberLoaded = true) :
    (procEnter s c).2.1 = [Ev.accept] := by
  have hne : s.audioChunks ≠ [] := by
    intro h
    rw [h] at h2
    exact h2 rfl
  simp [procEnter, h1, h2, h3, hne, List.isEmpty_iff]

/-- Claim C1: at most one utterance is being processed at any instant.
First part: `processAudio` returns immediately — invoking neither the
decoder nor the transcription engine, and leaving the state unchanged —
whenever the busy flag `isProcessingRef` is already set (line 358).
Second part: in every session state reachable from a started session, a
`processAudio` run suspended at an asynchronous step exists exactly when the
busy flag is set — an accepted invocation has set the flag (line 363) before
reaching any asynchronous step (first await, line 396). -/
theorem claim_C1 :
    (∀ (env : AudioEnv) (s : ProcState), s.isProcessingRef = true →
        processAudio env s = (s, ⟨false, false⟩)) ∧
    (∀ (t0 : ℕ) (ts : List SessTask),
        (replay (initSessState t0) ts).1.isProcessingRef
          = ((replay (initSessState t0) ts).1.inflight).isSome) := by
  constructor
  · intro env s h
    unfold processAudio
    simp [h]
  · intro t0 ts
    exact (replay_master ts (initSessState t0) rfl).1

/-- Witness for C1 at a concrete busy state. -/
theorem claim_C1_witness :
    processAudio ⟨DecodeResult.fail, Except.ok "hi"⟩ ⟨true, [3], "t", none, true⟩
      = (⟨true, [3], "t", none, true⟩, ⟨false, false⟩) :=
  claim_C1.1 ⟨DecodeResult.fail, Except.ok "hi"⟩ ⟨true, [3], "t", none, true⟩ rfl

/-- Claim C2: transcript segments append in boundary order.  Over every
interleaving of session tasks from a started session: (1) the number of
accepted hand-offs equals the number of completed `processAudio` runs plus
one exactly when a run is still in flight — so hand-offs and completions
strictly alternate and no hand-off is accepted while one is in flight
(instantiating the statement on every prefix of the task list gives the
alternation along the whole trace); (2) the transcript equals the fold of
the segments carried by the completion events in trace order — utterance N's
text is appended by N's completion event, which precedes the acceptance of
utterance N+1; and (3) any atomic step that restarts the recorder
(line 337) ends with the busy flag clear and nothing in flight, so the
recorder is never restarted while an utterance's processing is pending. -/
theorem claim_C2 (t0 : ℕ) (ts : List SessTask) :
    (acceptCount (replay (initSessState t0) ts).2
      = finishCount (replay (initSessState t0) ts).2
        + flagBit (replay (initSessState t0) ts).1) ∧
    (replay (initSessState t0) ts).1.transcript
      = (finishTexts (replay (initSessState t0) ts).2).foldl joinSeg "" ∧
    (∀ (s : SessState) (t : SessTask),
      s.isProcessingRef = s.inflight.isSome →
      Ev.restart ∈ (step s t).2 →
      (step s t).1.isProcessingRef = false ∧ (step s t).1.inflight = none) := by
  have h := replay_master ts (initSessState t0) rfl
  have h0 : flagBit (initSessState t0) = 0 := rfl
  refine ⟨?_, h.2.2, fun s t hI hm => step_restart s t hI hm⟩
  have := h.2.1
  rw [h0] at this
  omega

/-- Counterexample for C3: after one speech episode and a first boundary,
the has-speech flag is never reset, so a silence run with no further speech
fires a second boundary.  `speechThenSilence` produces exactly one boundary;
its continuation `silentContinuation` contains no frame above the speech
threshold, yet the combined trace produces two boundaries. -/
theorem claim_C3_counterexample :
    boundaryCount (replay (initSessState 0) speechThenSilence).2 = 1 ∧
    noSpeech silentContinuation = true ∧
    boundaryCount (replay (initSessState 0)
      (speechThenSilence ++ silentContinuation)).2 = 2 := by
  refine ⟨by decide, by decide, by decide⟩

/-- Claim C3 as amended: the detector never fires a boundary if no loudness
sample has exceeded the speech threshold since session start; in particular
pure silence from session start produces zero boundaries.  (The code never
resets `hasRecordedSpeechRef` on firing, so the per-boundary form of the
guarantee does not hold.) -/
theorem claim_C3_amended (t0 : ℕ) (ts : List SessTask)
    (h : noSpeech ts = true) :
    boundaryCount (replay (initSessState t0) ts).2 = 0 :=
  (silent_replay ts (initSessState t0) h rfl rfl).2.2

/-- Witness for the amended C3 on a concrete all-silent trace. -/
theorem claim_C3_amended_witness :
    noSpeech silentContinuation = true ∧
    boundaryCount (replay (initSessState 5) silentContinuation).2 = 0 :=
  ⟨by decide, claim_C3_amended 5 silentContinuation (by decide)⟩

/-- Counterexample for C4: `stopListening` releases the resources first and
performs the final hand-off last.  With one recorded chunk pending, the stop
click emits exactly one accepted hand-off, and that `accept` event comes
after the `tracksStopped` (and analyser/context release) events, refuting
"the hand-off occurs before the capture device, analysis node, and pending
timers are released". -/
theorem claim_C4_counterexample :
    acceptCount (replay (initSessState 0)
      [SessTask.dataAvail 2, SessTask.stopClick]).2 = 1 ∧
    (replay (initSessState 0) [SessTask.dataAvail 2, SessTask.stopClick]).2
      = [Ev.recorderStopSignal, Ev.tracksStopped, Ev.contextClosed, Ev.accept] ∧
    ((replay (initSessState 0)
        [SessTask.dataAvail 2, SessTask.stopClick]).2.indexOf Ev.tracksStopped
      < (replay (initSessState 0)
        [SessTask.dataAvail 2, SessTask.stopClick]).2.indexOf Ev.accept) := by
  refine ⟨by decide, by decide, by decide⟩

/-- Claim C4 as amended: when stop is requested while the current utterance
buffer is non-empty (with positive total size) and no processing is in
flight, exactly one final transcription hand-off is flushed, and that
hand-off occurs after the pending timer, capture-stream tracks, and analysis
node are released (it is the last event of the stop step). -/
theorem claim_C4_amended (s : SessState)
    (hchunks : 0 < s.audioChunks.sum) (hflag : s.isProcessingRef = false)
    (hloaded : s.transcriberLoaded = true) (hstream : s.streamActive = true) :
    acceptCount (step s SessTask.stopClick).2 = 1 ∧
    (step s SessTask.stopClick).2.getLast? = some Ev.accept ∧
    Ev.tracksStopped ∈ (step s SessTask.stopClick).2 := by
  obtain ⟨srf, sri, srt, sra, srl, sracc, srfin, srtx⟩ := stopReleased_spec s
  have hsum : (stopReleased s).1.audioChunks.sum ≠ 0 := by
    rw [sra]; omega
  have hne : (stopReleased s).1.audioChunks ≠ [] := by
    intro h
    rw [h] at hsum
    exact hsum rfl
  have hpf : (stopReleased s).1.isProcessingRef = false := by rw [srf, hflag]
  have hpe : (procEnter (stopReleased s).1 false).2.1 = [Ev.accept] :=
    procEnter_accept (stopReleased s).1 false hpf hsum (by rw [srl, hloaded])
  simp only [step]
  rw [if_pos (And.intro hne hpf)]
  dsimp only
  refine ⟨?_, ?_, ?_⟩
  · rw [acceptCount_append, sracc, hpe]
    rfl
  · rw [hpe]
    simp
  · exact List.mem_append.mpr (Or.inl (stopReleased_tracks s hstream))

/-- Witness for the amended C4 at a concrete pre-stop state. -/
theorem claim_C4_amended_witness :
    acceptCount (step { initSessState 0 with audioChunks := [2] }
      SessTask.stopClick).2 = 1 ∧
    (step { initSessState 0 with audioChunks := [2] }
      SessTask.stopClick).2.getLast? = some Ev.accept ∧
    Ev.tracksStopped ∈ (step { initSessState 0 with audioChunks := [2] }
      SessTask.stopClick).2 :=
  claim_C4_amended { initSessState 0 with audioChunks := [2] }
    (by decide) rfl rfl rfl

/-- Claim C5: a decoded buffer with fewer than 8000 samples is dropped
(line 424): the engine is not invoked, the user-visible error is untouched,
and the transcript is unchanged. -/
theorem claim_C5 (env : AudioEnv) (s : ProcState) (samples : List ℚ) (rate : ℕ)
    (hdec : env.decodeResult = DecodeResult.ok samples rate)
    (hlen : samples.length < 8000) :
    (processAudio env s).2.engineInvoked = false ∧
    (processAudio env s).1.error = s.error ∧
    (processAudio env s).1.transcript = s.transcript := by
  unfold processAudio
  rw [hdec]
  dsimp only
  split_ifs <;> simp_all

/-- Witness for C5 on a two-sample buffer. -/
theorem claim_C5_witness :
    (processAudio ⟨DecodeResult.ok [1, 2] 16000, Except.ok "hi"⟩
      ⟨false, [3], "t", none, true⟩).2.engineInvoked = false ∧
    (processAudio ⟨DecodeResult.ok [1, 2] 16000, Except.ok "hi"⟩
      ⟨false, [3], "t", none, true⟩).1.error = (none : Option String) ∧
    (processAudio ⟨DecodeResult.ok [1, 2] 16000, Except.ok "hi"⟩
      ⟨false, [3], "t", none, true⟩).1.transcript = "t" :=
  claim_C5 ⟨DecodeResult.ok [1, 2] 16000, Except.ok "hi"⟩
    ⟨false, [3], "t", none, true⟩ [1, 2] 16000 rfl (by norm_num)

/-- Claim C6: a decoded buffer whose root-mean-square energy is below 0.005
is dropped (line 432): the engine is not invoked, the user-visible error is
untouched, and the transcript is unchanged.  RMS below 0.005 is expressed in
exact arithmetic as mean square below 0.005 squared. -/
theorem claim_C6 (env : AudioEnv) (s : ProcState) (samples : List ℚ) (rate : ℕ)
    (hdec : env.decodeResult = DecodeResult.ok samples rate)
    (hrms : sumSquares samples / (samples.length : ℚ) < (5 / 1000) * (5 / 1000)) :
    (processAudio env s).2.engineInvoked = false ∧
    (processAudio env s).1.error = s.error ∧
    (processAudio env s).1.transcript = s.transcript := by
  have hha : hasAudioContent samples (5 / 1000) = false := by
    unfold hasAudioContent
    simp only [decide_eq_false_iff_not]
    exact not_lt.mpr (le_of_lt hrms)
  unfold processAudio
  rw [hdec]
  dsimp only
  split_ifs <;> simp_all

/-- Witness for C6 on an 8000-sample all-zero buffer. -/
theorem claim_C6_witness :
    (processAudio ⟨DecodeResult.ok (List.replicate 8000 0) 16000, Except.ok "hi"⟩
      ⟨false, [3], "t", none, true⟩).2.engineInvoked = false ∧
    (processAudio ⟨DecodeResult.ok (List.replicate 8000 0) 16000, Except.ok "hi"⟩
      ⟨false, [3], "t", none, true⟩).1.error = (none : Option String) ∧
    (processAudio ⟨DecodeResult.ok (List.replicate 8000 0) 16000, Except.ok "hi"⟩
      ⟨false, [3], "t", none, true⟩).1.transcript = "t" :=
  claim_C6 ⟨DecodeResult.ok (List.replicate 8000 0) 16000, Except.ok "hi"⟩
    ⟨false, [3], "t", none, true⟩ (List.replicate 8000 0) 16000 rfl
    (by
      have hm : (List.replicate 8000 (0 : ℚ)).map (fun x => x * x)
          = List.replicate 8000 0 := by
        rw [List.map_replicate]
        norm_num
      unfold sumSquares
      rw [hm, List.sum_replicate]
      norm_num)

/-- Claim C7: a decode failure is swallowed (lines 410-418): no user-visible
error is set, the transcript is unchanged, the busy flag ends cleared, and
the engine is never invoked, so the session continues.  The hypothesis that
the call is not rejected-as-busy reflects the claim's premise that this run
is the one processing the buffer. -/
theorem claim_C7 (env : AudioEnv) (s : ProcState)
    (hdec : env.decodeResult = DecodeResult.fail)
    (hflag : s.isProcessingRef = false) :
    (processAudio env s).1.error = s.error ∧
    (processAudio env s).1.transcript = s.transcript ∧
    (processAudio env s).1.isProcessingRef = false ∧
    (processAudio env s).2.engineInvoked = false := by
  unfold processAudio
  rw [hdec]
  dsimp only
  split_ifs <;> simp_all

/-- Witness for C7 on a concrete failing decode. -/
theorem claim_C7_witness :
    (processAudio ⟨DecodeResult.fail, Except.ok "hi"⟩
      ⟨false, [3], "t", none, true⟩).1.error = (none : Option String) ∧
    (processAudio ⟨DecodeResult.fail, Except.ok "hi"⟩
      ⟨false, [3], "t", none, true⟩).1.transcript = "t" ∧
    (processAudio ⟨DecodeResult.fail, Except.ok "hi"⟩
      ⟨false, [3], "t", none, true⟩).1.isProcessingRef = false ∧
    (processAudio ⟨DecodeResult.fail, Except.ok "hi"⟩
      ⟨false, [3], "t", none, true⟩).2.engineInvoked = false :=
  claim_C7 ⟨DecodeResult.fail, Except.ok "hi"⟩
    ⟨false, [3], "t", none, true⟩ rfl rfl



lemma isWS_cases {c : Char} (h : isWS c = true) :
    c = ' ' ∨ c = '\t' ∨ c = '\n' ∨ c = '\r' ∨ c = '\x0b' ∨ c = '\x0c' := by
  unfold isWS at h
  simp only [Bool.or_eq_true, decide_eq_true_eq] at h
  tauto

lemma isWS_toLower_ne {c : Char} (h : isWS c = true) {t : Char}
    (ht : t ∈ blankAudioChars) : c.toLower ≠ t := by
  simp only [blankAudioChars, List.mem_cons, List.not_mem_nil, or_false] at ht
  rcases isWS_cases h with h | h | h | h | h | h <;> subst h <;>
    rcases ht with h | h | h | h | h | h | h | h | h | h | h | h | h <;>
      subst h <;> decide

lemma startsWithCI_wsBreak (tok : List Char) (htok : ∀ t ∈ tok, t ∈ blankAudioChars) :
    ∀ (r w : List Char), (∀ c ∈ w, isWS c = true) →
      startsWithCI tok (r ++ w) = startsWithCI tok r := by
  induction tok with
  | nil => intro r w _; rfl
  | cons t ts ih =>
    intro r w hw
    cases r with
    | nil =>
      cases w with
      | nil => rfl
      | cons c w' =>
        have hc : isWS c = true := hw c (List.mem_cons_self ..)
        have hne := isWS_toLower_ne hc (htok t (List.mem_cons_self ..))
        simp [startsWithCI, hne]
    | cons x r' =>
      simp only [List.cons_append, startsWithCI, List.append_eq]
      rw [ih (fun u hu => htok u (List.mem_cons_of_mem _ hu)) r' w hw]

lemma startsWithCI_le_length (tok : List Char) :
    ∀ (l : List Char), startsWithCI tok l = true → tok.length ≤ l.length := by
  induction tok with
  | nil => intro l _; simp
  | cons t ts ih =>
    intro l h
    cases l with
    | nil => simp [startsWithCI] at h
    | cons c cs =>
      simp only [startsWithCI, Bool.and_eq_true] at h
      have := ih cs h.2
      simp only [List.length_cons]
      omega

lemma stripBlankGo_wsLeft (w : List Char) (hw : ∀ c ∈ w, isWS c = true) :
    ∀ (r : List Char), stripBlankGo (w ++ r) 0 = w ++ stripBlankGo r 0 := by
  induction w with
  | nil => intro r; rfl
  | cons c w' ih =>
    intro r
    have hc : isWS c = true := hw c (List.mem_cons_self ..)
    have hne : c.toLower ≠ '[' := isWS_toLower_ne hc (by simp [blankAudioChars])
    have hno : startsWithCI blankAudioChars (c :: (w' ++ r)) = false := by
      simp [blankAudioChars, startsWithCI, hne]
    rw [List.cons_append, stripBlankGo, hno]
    simp only [Bool.false_eq_true, if_false]
    rw [ih (fun u hu => hw u (List.mem_cons_of_mem _ hu)) r]
    simp

lemma stripBlank_nil : stripBlank [] = [] := rfl

lemma stripBlankGo_wsOnly (w : List Char) (hw : ∀ c ∈ w, isWS c = true) :
    stripBlankGo w 0 = w := by
  have := stripBlankGo_wsLeft w hw []
  simpa [stripBlankGo] using this

lemma stripBlankGo_wsRight (w : List Char) (hw : ∀ c ∈ w, isWS c = true) :
    ∀ (r : List Char) (n : ℕ), n ≤ r.length →
      stripBlankGo (r ++ w) n = stripBlankGo r n ++ w := by
  intro r
  induction r with
  | nil =>
    intro n hn
    have : n = 0 := Nat.le_zero.mp hn
    subst this
    simp [stripBlankGo, stripBlankGo_wsOnly w hw]
  | cons x r' ih =>
    intro n hn
    cases n with
    | succ m =>
      rw [List.cons_append, stripBlankGo, stripBlankGo]
      exact ih m (by simp only [List.length_cons] at hn; omega)
    | zero =>
      have hkey : startsWithCI blankAudioChars (x :: r' ++ w)
          = startsWithCI blankAudioChars (x :: r') := by
        have := startsWithCI_wsBreak blankAudioChars (fun t ht => ht)
          (x :: r') w hw
        simpa using this
      cases hsw : startsWithCI blankAudioChars (x :: r') with
      | true =>
        have hlen : 13 ≤ (x :: r').length :=
          startsWithCI_le_length blankAudioChars (x :: r') hsw
        rw [List.cons_append, stripBlankGo]
        rw [show startsWithCI blankAudioChars (x :: (r' ++ w))
            = true from by rw [← List.cons_append, hkey, hsw]]
        simp only [if_true]
        rw [stripBlankGo, hsw]
        simp only [if_true]
        exact ih 12 (by simp only [List.length_cons] at hlen; omega)
      | false =>
        rw [List.cons_append, stripBlankGo]
        rw [show startsWithCI blankAudioChars (x :: (r' ++ w))
            = false from by rw [← List.cons_append, hkey, hsw]]
        simp only [Bool.false_eq_true, if_false]
        rw [stripBlankGo, hsw]
        simp only [Bool.false_eq_true, if_false, List.cons_append]
        rw [ih 0 (Nat.zero_le _)]

lemma stripBlank_wsLeft (w : List Char) (hw : ∀ c ∈ w, isWS c = true)
    (r : List Char) : stripBlank (w ++ r) = w ++ stripBlank r :=
  stripBlankGo_wsLeft w hw r

lemma stripBlank_wsRight (w : List Char) (hw : ∀ c ∈ w, isWS c = true)
    (r : List Char) : stripBlank (r ++ w) = stripBlank r ++ w :=
  stripBlankGo_wsRight w hw r 0 (Nat.zero_le _)


lemma dropWhile_wsAll (w : List Char) (hw : ∀ c ∈ w, isWS c = true) :
    ∀ (r : List Char), (w ++ r).dropWhile isWS = r.dropWhile isWS := by
  induction w with
  | nil => intro r; rfl
  | cons c w' ih =>
    intro r
    rw [List.cons_append, List.dropWhile_cons,
      if_pos (hw c (List.mem_cons_self ..)),
      ih (fun u hu => hw u (List.mem_cons_of_mem _ hu)) r]

lemma dropWhile_append_of_ne {p : Char → Bool} (l₁ l₂ : List Char)
    (h : l₁.dropWhile p ≠ []) :
    (l₁ ++ l₂).dropWhile p = l₁.dropWhile p ++ l₂ := by
  induction l₁ with
  | nil => simp at h
  | cons a l ih =>
    by_cases hp : p a
    · rw [List.dropWhile_cons, if_pos hp] at h
      rw [List.cons_append, List.dropWhile_cons, if_pos hp, ih h,
        List.dropWhile_cons, if_pos hp]
    · rw [List.dropWhile_cons, if_neg hp] at h ⊢
      rw [List.cons_append, List.dropWhile_cons, if_neg hp]

lemma jsTrimL_wsLeft (w : List Char) (hw : ∀ c ∈ w, isWS c = true)
    (r : List Char) : jsTrimL (w ++ r) = jsTrimL r := by
  unfold jsTrimL
  rw [dropWhile_wsAll w hw r]

lemma jsTrimL_wsRight (r w : List Char) (hw : ∀ c ∈ w, isWS c = true) :
    jsTrimL (r ++ w) = jsTrimL r := by
  unfold jsTrimL
  by_cases h : r.dropWhile isWS = []
  · have hrw : ∀ c ∈ r, isWS c = true := List.dropWhile_eq_nil_iff.mp h
    rw [dropWhile_wsAll r hrw w, h]
    have hww : w.dropWhile isWS = [] := List.dropWhile_eq_nil_iff.mpr hw
    rw [hww]
  · rw [dropWhile_append_of_ne r w h, List.reverse_append,
      dropWhile_wsAll w.reverse
        (fun c hc => hw c (List.mem_reverse.mp hc)) _]

lemma stripTrim_comm (l : List Char) :
    jsTrimL (stripBlank (jsTrimL l)) = jsTrimL (stripBlank l) := by
  have hw1 : ∀ c ∈ l.takeWhile isWS, isWS c = true :=
    fun c hc => List.mem_takeWhile_imp hc
  have hR : jsTrimL (stripBlank l) = jsTrimL (stripBlank (l.dropWhile isWS)) := by
    conv_lhs => rw [← List.takeWhile_append_dropWhile (p := isWS) (l := l)]
    rw [stripBlank_wsLeft _ hw1 (l.dropWhile isWS), jsTrimL_wsLeft _ hw1 _]
  have hw2 : ∀ c ∈ ((l.dropWhile isWS).reverse.takeWhile isWS).reverse,
      isWS c = true :=
    fun c hc => List.mem_takeWhile_imp (List.mem_reverse.mp hc)
  have hsplit2 : l.dropWhile isWS
      = ((l.dropWhile isWS).reverse.dropWhile isWS).reverse
        ++ ((l.dropWhile isWS).reverse.takeWhile isWS).reverse := by
    conv_lhs => rw [← List.reverse_reverse (l.dropWhile isWS)]
    conv_lhs =>
      rw [← List.takeWhile_append_dropWhile (p := isWS)
        (l := (l.dropWhile isWS).reverse)]
    rw [List.reverse_append]
  have hb : jsTrimL l = ((l.dropWhile isWS).reverse.dropWhile isWS).reverse := rfl
  have hL : jsTrimL (stripBlank (l.dropWhile isWS))
      = jsTrimL (stripBlank (jsTrimL l)) := by
    conv_lhs => rw [hsplit2]
    rw [stripBlank_wsRight _ hw2 _, jsTrimL_wsRight _ _ hw2, hb]
  rw [hR, ← hL]

lemma transcribedSegment_spec (raw : String) :
    transcribedSegment raw =
      (if jsTrimL (stripBlank raw.data) ≠ [] ∧
          onlySpecial (jsTrimL (stripBlank raw.data)) = false
       then some (String.mk (jsTrimL (stripBlank raw.data))) else none) := by
  unfold transcribedSegment
  by_cases hraw : raw = ""
  · subst hraw
    rw [if_pos rfl]
    have hd : ("" : String).data = [] := rfl
    rw [hd, stripBlank_nil]
    simp [jsTrimL]
  · rw [if_neg hraw]
    dsimp only
    rw [stripTrim_comm raw.data]



/-- Claim C8: when the transcription engine returns text, the text obtained
by removing every literal `[BLANK_AUDIO]` token (case-insensitively) and
trimming is appended to the transcript — joined to existing content with a
single space by `joinSeg` — if and only if it is non-empty and not composed
solely of whitespace, square-bracket, and parenthesis characters; otherwise
the transcript is unchanged.  (The code trims before stripping as well, at
line 452; the supporting commutation lemma shows this yields the same final
text.)  The hypotheses put the run on the path that reaches the engine. -/
theorem claim_C8 (s : ProcState) (samples : List ℚ) (rate : ℕ) (raw : String)
    (hflag : s.isProcessingRef = false) (hchunks : s.audioChunks.sum ≠ 0)
    (hloaded : s.transcriberLoaded = true) (hlen : ¬samples.length < 8000)
    (hloud : hasAudioContent samples (5 / 1000) = true) :
    (processAudio ⟨DecodeResult.ok samples rate, Except.ok raw⟩ s).1.transcript
      = (if String.mk (jsTrimL (stripBlank raw.data)) ≠ "" ∧
            onlySpecial (jsTrimL (stripBlank raw.data)) = false
         then joinSeg s.transcript (String.mk (jsTrimL (stripBlank raw.data)))
         else s.transcript) := by
  have hne : s.audioChunks ≠ [] := by
    intro h
    rw [h] at hchunks
    exact hchunks rfl
  have hiff : (String.mk (jsTrimL (stripBlank raw.data)) ≠ "")
      ↔ jsTrimL (stripBlank raw.data) ≠ [] := by
    simp [String.ext_iff]
  have hguard : ¬ ((s.isProcessingRef || s.audioChunks.isEmpty
      || !s.transcriberLoaded) = true) := by
    simp [hflag, hloaded, hne]
  have hemp : ¬ (s.audioChunks.isEmpty = true) := by simp [hne]
  have hq : ¬ ((!hasAudioContent samples (5 / 1000)) = true) := by simp [hloud]
  unfold processAudio
  rw [if_neg hguard, if_neg hemp, if_neg hchunks, if_neg hchunks]
  dsimp only
  rw [if_neg hlen, if_neg hq]
  dsimp only
  show applyTranscription raw s.transcript = _
  unfold applyTranscription
  rw [transcribedSegment_spec raw]
  by_cases hc : jsTrimL (stripBlank raw.data) ≠ [] ∧
      onlySpecial (jsTrimL (stripBlank raw.data)) = false
  · rw [if_pos hc, if_pos (And.intro (hiff.mpr hc.1) hc.2)]
  · rw [if_neg hc, if_neg (fun hB => hc (And.intro (hiff.mp hB.1) hB.2))]

/-- Witness for C8: a concrete engine result containing a blank-audio token
and surrounding whitespace is filtered and space-joined onto the prior
transcript. -/
theorem claim_C8_witness :
    (processAudio
      ⟨DecodeResult.ok (List.replicate 8000 1) 16000,
        Except.ok " [BLANK_AUDIO] hello "⟩
      ⟨false, [3], "hi", none, true⟩).1.transcript = "hi hello" := by
  have hloud : hasAudioContent (List.replicate 8000 (1 : ℚ)) (5 / 1000) = true := by
    unfold hasAudioContent sumSquares
    rw [List.map_replicate, List.sum_replicate]
    norm_num
  have h := claim_C8 ⟨false, [3], "hi", none, true⟩ (List.replicate 8000 1)
    16000 " [BLANK_AUDIO] hello " rfl (by norm_num) rfl
    (by rw [List.length_replicate]; omega) hloud
  rw [h]
  rfl

/-- Claim C9: `resampleAudio` is the identity when the rates are equal; when
they differ it returns a buffer of length `round(inputLength*toRate/fromRate)`
whose entry at every index `i` is the claim's linear-interpolation formula
`interpAt`. -/
theorem claim_C9 (d : List ℚ) (fromRate toRate : ℚ) :
    (fromRate = toRate → resampleAudio d fromRate toRate = d) ∧
    (fromRate ≠ toRate →
      (resampleAudio d fromRate toRate).length
          = (jsRound ((d.length : ℚ) * toRate / fromRate)).toNat ∧
      ∀ i : ℕ, i < (jsRound ((d.length : ℚ) * toRate / fromRate)).toNat →
        (resampleAudio d fromRate toRate).getD i 0 = interpAt d fromRate toRate i) := by
  have hlen : resampleNewLength d.length fromRate toRate
      = (jsRound ((d.length : ℚ) * toRate / fromRate)).toNat := by
    unfold resampleNewLength
    rw [div_div_eq_mul_div]
  constructor
  · intro h
    simp [resampleAudio, h]
  · intro h
    unfold resampleAudio
    rw [if_neg h]
    dsimp only
    refine ⟨by rw [List.length_map, List.length_range, hlen], ?_⟩
    intro i hi
    rw [← hlen] at hi
    rw [List.getD_eq_getD_get?, List.get?_map, List.get?_range hi]
    rfl

/-- Witness for C9: identity at equal rates on a concrete buffer, and the
interpolation formula at a concrete index for a halving resample. -/
theorem claim_C9_witness :
    resampleAudio [1, 2] 3 3 = [1, 2] ∧
    (resampleAudio [1, 2, 3, 4] 32000 16000).getD 1 0
      = interpAt [1, 2, 3, 4] 32000 16000 1 :=
  ⟨(claim_C9 [1, 2] 3 3).1 rfl,
   ((claim_C9 [1, 2, 3, 4] 32000 16000).2 (by norm_num)).2 1 (by
      have h : jsRound ((([1, 2, 3, 4] : List ℚ).length : ℚ) * 16000 / 32000)
          = 2 := by
        unfold jsRound
        rw [Int.floor_eq_iff]
        constructor <;> norm_num
      rw [h]
      decide)⟩

/-- Claim C10: for every non-empty buffer and positive rates, every array
read of the resampling loop is in bounds: for each output index
`i < round(inputLength*toRate/fromRate)`, both `floor(i*fromRate/toRate)`
and the clamped `min(floor(i*fromRate/toRate)+1, inputLength-1)` are
nonnegative positions strictly below the input length. -/
theorem claim_C10 (d : List ℚ) (fromRate toRate : ℚ)
    (hf : 0 < fromRate) (ht : 0 < toRate) (hd : d ≠ []) :
    ∀ i : ℕ, i < resampleNewLength d.length fromRate toRate →
      (⌊(i : ℚ) * (fromRate / toRate)⌋).toNat < d.length ∧
      (min (⌊(i : ℚ) * (fromRate / toRate)⌋ + 1)
        ((d.length : ℤ) - 1)).toNat < d.length := by
  intro i hi
  have hr : 0 < fromRate / toRate := div_pos hf ht
  have hlen1 : 1 ≤ d.length := List.length_pos.mpr hd
  unfold resampleNewLength jsRound at hi
  have h1 : (i : ℤ) < ⌊(d.length : ℚ) / (fromRate / toRate) + 1 / 2⌋ :=
    Int.lt_toNat.mp hi
  have h2 : ((i : ℤ) + 1 : ℚ) ≤ (d.length : ℚ) / (fromRate / toRate) + 1 / 2 := by
    have := Int.le_floor.mp (Int.add_one_le_iff.mpr h1)
    push_cast at this ⊢
    exact this
  have h3 : (i : ℚ) < (d.length : ℚ) / (fromRate / toRate) := by
    push_cast at h2
    linarith
  have h4 : (i : ℚ) * (fromRate / toRate) < (d.length : ℚ) :=
    (lt_div_iff hr).mp h3
  have h5 : ⌊(i : ℚ) * (fromRate / toRate)⌋ < (d.length : ℤ) :=
    Int.floor_lt.mpr (by exact_mod_cast h4)
  constructor <;> omega

/-- Witness for C10 at a concrete buffer, rates, and index. -/
theorem claim_C10_witness :
    (⌊((0 : ℕ) : ℚ) * ((2 : ℚ) / 1)⌋).toNat < ([1, 2] : List ℚ).length ∧
    (min (⌊((0 : ℕ) : ℚ) * ((2 : ℚ) / 1)⌋ + 1)
      ((([1, 2] : List ℚ).length : ℤ) - 1)).toNat < ([1, 2] : List ℚ).length :=
  claim_C10 [1, 2] 2 1 (by norm_num) (by norm_num) (by simp) 0 (by
    show 0 < (jsRound ((([1, 2] : List ℚ).length : ℚ) / (2 / 1))).toNat
    have h : jsRound ((([1, 2] : List ℚ).length : ℚ) / (2 / 1)) = 1 := by
      unfold jsRound
      rw [Int.floor_eq_iff]
      constructor <;> norm_num
    rw [h]
    decide)

end SpeechToText
